import Mathlib

/-!
Shallow embedding of the geometric/temporal computation layer of the colby
charting library (`cb.py`), together with theorems settling the frozen claims
about it.

Modelling conventions:
* Python floats are modelled by `ℚ` (exact arithmetic; the claims are stated
  within floating-point tolerance, so exact equality is the idealised form).
* A Python operation that can raise (`KeyError`, `ZeroDivisionError`,
  `IndexError`, failed `assert`) is modelled as a function into `Option`,
  with `none` marking the raised exception, composed in the source's
  evaluation order.
* A timestamp is modelled by its matplotlib date ordinal (days since
  1970-01-01, fractional days allowed) plus the calendar month tag that
  `center_ts_obs` reads from the first index entry before any shift is
  applied.  Shifting by a `timedelta` adds to the ordinal and leaves the
  month tag untouched (the tag is only ever consulted on the unshifted
  first index).
-/

/-- Proleptic-Gregorian day count since 1970-01-01 (the days-from-civil
algorithm, with truncating integer division as in the source's date
libraries).  Used to express concrete calendar dates as ordinals. -/
def daysFromCivil (y m d : Int) : Int :=
  let y2 := if m ≤ 2 then y - 1 else y
  let era := (if 0 ≤ y2 then y2 else y2 - 399) / 400
  let yoe := y2 - era * 400
  let mp := (m + 9) % 12
  let doy := (153 * mp + 2) / 5 + d - 1
  let doe := yoe * 365 + yoe / 4 - yoe / 100 + doy
  era * 146097 + doe - 719468

/-- Embedding of `data2fixed` (cb.py lines 48-70) on an axis with limits
`(lo, hi)` in exact rational arithmetic; date inputs are assumed already
normalised to their ordinal, as the source does via `mdates.date2num`.
The limits come from `ax.get_xlim()` as numpy float64 values, so on a
zero-width range the division does not raise: it silently produces a
non-finite float (inf, -inf, or nan), which has no counterpart in `ℚ`.
That case is marked `none` here only because `ℚ` cannot carry it; the
faithful non-finite outcome is modelled by `data2fixed_np` below, and on a
proper range the two embeddings agree (`data2fixed_np_agrees`). -/
def data2fixed (coord lo hi : ℚ) : Option ℚ :=
  if hi - lo = 0 then none else some ((coord - lo) / (hi - lo))

/-- Value of a numpy float64 computation: either a finite value (exact, as
`ℚ`) or one of the non-finite IEEE results that numpy division produces
silently (with at most a RuntimeWarning). -/
inductive PyFloat where
  | finite (q : ℚ)
  | posInf
  | negInf
  | nan
deriving DecidableEq

/-- Embedding of `data2fixed` (cb.py lines 48-70) with the numpy float64
division semantics of its return value: `ax.get_xlim()` yields float64
limits, and float64 division by a zero-width range silently produces
`inf` when the numerator is positive, `-inf` when negative, and `nan`
for `0.0/0.0` — no exception is raised. -/
def data2fixed_np (coord lo hi : ℚ) : PyFloat :=
  if hi - lo = 0 then
    if 0 < coord - lo then PyFloat.posInf
    else if coord - lo < 0 then PyFloat.negInf
    else PyFloat.nan
  else PyFloat.finite ((coord - lo) / (hi - lo))

/-- Embedding of `fixed2data` (cb.py lines 73-91) on an axis with limits
`(lo, hi)`.  The source computes `coord * (hi - lo) + lo` with no division,
so no exception and no non-finite result can occur on finite inputs: the
function is total. -/
def fixed2data (coord lo hi : ℚ) : ℚ :=
  coord * (hi - lo) + lo

/-- On a proper (nonzero-width) axis range the float-faithful embedding and
the exact-rational embedding of `data2fixed` agree on the same finite
value. -/
theorem data2fixed_np_agrees (coord lo hi : ℚ) (h : hi - lo ≠ 0) :
    data2fixed_np coord lo hi = PyFloat.finite ((coord - lo) / (hi - lo)) ∧
    data2fixed coord lo hi = some ((coord - lo) / (hi - lo)) := by
  constructor <;> simp [data2fixed_np, data2fixed, h]

/-- Embedding of the literal `freq_dict` table built inside
`calc_ts_bar_width` (cb.py lines 144-153), mapping a canonical frequency tag
to its nominal period length in days; a missing key is Python's `KeyError`. -/
def calc_freq_dict (freq : String) : Option ℚ :=
  match freq with
  | "<Minute>" => some (1 / (60 * 24))
  | "<Hour>" => some (1 / 24)
  | "<Day>" => some 1
  | "<BusinessDay>" => some 1
  | "<MonthEnd>" => some 30
  | "<6 * MonthEnds>" => some 180
  | "<QuarterEnd: startingMonth=12>" => some 91
  | "<2 * QuarterEnds: startingMonth=12>" => some 182
  | "<YearEnd: month=12>" => some 365
  | "<5 Minutes>" => some (5 / (60 * 24))
  | "<10 Minutes>" => some (10 / (60 * 24))
  | "<15 Minutes>" => some (15 / (60 * 24))
  | "<20 Minutes>" => some (20 / (60 * 24))
  | "<30 Minutes>" => some (30 / (60 * 24))
  | "<2 Hours>" => some (2 / 24)
  | "<3 Hours>" => some (3 / 24)
  | "<4 Hours>" => some (4 / 24)
  | "<6 Hours>" => some (6 / 24)
  | "<8 Hours>" => some (8 / 24)
  | "<12 Hours>" => some (12 / 24)
  | "<Week: weekday=0>" => some 7
  | "<Week: weekday=1>" => some 7
  | "<Week: weekday=2>" => some 7
  | "<Week: weekday=3>" => some 7
  | "<Week: weekday=4>" => some 7
  | "<Week: weekday=5>" => some 7
  | "<Week: weekday=6>" => some 7
  | _ => none

/-- Embedding of `calc_ts_bar_width` (cb.py lines 131-154):
`width_coef * freq_dict[freq] / number_stacks`.  An unknown frequency raises
`KeyError`; `number_stacks = 0` raises `ZeroDivisionError`; any other stack
count (negative included) is divided through without complaint. -/
def calc_ts_bar_width (freq : String) (number_stacks : Int) (width_coef : ℚ) : Option ℚ :=
  match calc_freq_dict freq with
  | none => none
  | some pl =>
    if number_stacks = 0 then none
    else some (width_coef * pl / (number_stacks : ℚ))

/-- C2: for every axis range with `lo < hi` and every data coordinate `d`,
`data2fixed` succeeds and `fixed2data` maps its output back to `d` exactly
(round-trip identity of the two converters on the same axis range). -/
theorem data2fixed_fixed2data_roundtrip (d lo hi : ℚ) (h : lo < hi) :
    ∃ f, data2fixed d lo hi = some f ∧ fixed2data f lo hi = d := by
  have hne : hi - lo ≠ 0 := sub_ne_zero.mpr (ne_of_gt h)
  refine ⟨(d - lo) / (hi - lo), ?_, ?_⟩
  · simp [data2fixed, hne]
  · field_simp [fixed2data]

/-- Witness for C2 at a concrete input: axis range `(2, 10)`, coordinate 5. -/
theorem data2fixed_fixed2data_roundtrip_witness :
    (2 : ℚ) < 10 ∧ ∃ f, data2fixed 5 2 10 = some f ∧ fixed2data f 2 10 = 5 :=
  ⟨by norm_num, data2fixed_fixed2data_roundtrip 5 2 10 (by norm_num)⟩

/-- Counterexample to C3: `fixed2data` called with the zero-width axis range
`(2, 2)` does not fail; it silently returns the numeric value 2 (the axis
minimum), refuting the claim that both converters error on zero width. -/
theorem fixed2data_zero_width_silent : fixed2data (1 / 2) 2 2 = 2 := by
  norm_num [fixed2data]

/-- C3 (amended): neither converter fails on a zero-width axis range.
`data2fixed` divides numpy float64 limits, so it silently yields a
non-finite value — `inf` when the coordinate lies above the collapsed
limit, `-inf` below it, `nan` at it — with only a RuntimeWarning; and
`fixed2data` performs no division and silently returns
`coord * 0 + lo = lo`, the axis minimum.  No error is raised by either. -/
theorem zero_width_range_behavior (coord lo : ℚ) :
    (lo < coord → data2fixed_np coord lo lo = PyFloat.posInf) ∧
    (coord < lo → data2fixed_np coord lo lo = PyFloat.negInf) ∧
    (coord = lo → data2fixed_np coord lo lo = PyFloat.nan) ∧
    fixed2data coord lo lo = lo := by
  refine ⟨?_, ?_, ?_, by simp [fixed2data]⟩
  · intro h
    have h1 : (0 : ℚ) < coord - lo := sub_pos.mpr h
    simp [data2fixed_np, sub_self, h1]
  · intro h
    have h1 : coord - lo < 0 := sub_neg.mpr h
    have h2 : ¬ (0 : ℚ) < coord - lo := not_lt.mpr h1.le
    simp [data2fixed_np, sub_self, h1, h2]
  · intro h
    simp [data2fixed_np, h, sub_self]

/-- Witness for C3 (amended) at a concrete input: on the zero-width range
`(2, 2)` the coordinate 5 converts to `inf` silently, and `fixed2data`
returns the axis minimum 2. -/
theorem zero_width_range_behavior_witness :
    data2fixed_np 5 2 2 = PyFloat.posInf ∧ fixed2data 5 2 2 = 2 := by
  have h := zero_width_range_behavior 5 2
  exact ⟨h.1 (by norm_num), h.2.2.2⟩

/-- Counterexample to C4: a negative stack count is not an error —
`calc_ts_bar_width` with `number_stacks = -1` silently returns the negative
width `-1`, refuting the claim that any stack count other than `n ≥ 1`
(zero or negative) errors. -/
theorem calc_ts_bar_width_negative_stacks_no_error :
    calc_ts_bar_width "<Day>" (-1) 1 = some (-1) := by
  norm_num [calc_ts_bar_width, calc_freq_dict]

/-- C4 (amended): for every frequency tag in the table and every nonzero
stack count `n` (negative included), `calc_ts_bar_width` returns
`periodLength * c / n`; the table matches the literal day lengths
(day = 1, business-day = 1, month-end = 30, quarter-end = 91,
year-end = 365, hour = 1/24, minute = 1/1440, week = 7, with the listed
skip-multiples); `n = 0` raises a division error for every frequency. -/
theorem calc_ts_bar_width_formula (freq : String) (pl c : ℚ) (n : Int)
    (hf : calc_freq_dict freq = some pl) (hn : n ≠ 0) :
    calc_ts_bar_width freq n c = some (c * pl / (n : ℚ)) ∧
    (∀ fr co, calc_ts_bar_width fr 0 co = none) ∧
    calc_freq_dict "<Day>" = some 1 ∧
    calc_freq_dict "<BusinessDay>" = some 1 ∧
    calc_freq_dict "<MonthEnd>" = some 30 ∧
    calc_freq_dict "<QuarterEnd: startingMonth=12>" = some 91 ∧
    calc_freq_dict "<YearEnd: month=12>" = some 365 ∧
    calc_freq_dict "<Hour>" = some (1 / 24) ∧
    calc_freq_dict "<Minute>" = some (1 / 1440) ∧
    calc_freq_dict "<Week: weekday=6>" = some 7 ∧
    calc_freq_dict "<6 * MonthEnds>" = some 180 ∧
    calc_freq_dict "<2 * QuarterEnds: startingMonth=12>" = some 182 := by
  refine ⟨?_, ?_, rfl, rfl, rfl, rfl, rfl,
    rfl, by norm_num [calc_freq_dict], rfl, rfl, rfl⟩
  · simp [calc_ts_bar_width, hf, hn]
  · intro fr co
    cases hfr : calc_freq_dict fr <;> simp [calc_ts_bar_width, hfr]

/-- Witness for C4 (amended) at a concrete input: month-end frequency with
two stacks gives width 15. -/
theorem calc_ts_bar_width_formula_witness :
    calc_ts_bar_width "<MonthEnd>" 2 1 = some 15 := by
  have h := calc_ts_bar_width_formula "<MonthEnd>" 30 1 2 rfl (by decide)
  exact h.1.trans (by norm_num)

/-- Modelled timestamp: matplotlib date ordinal (days since 1970-01-01,
fractional days allowed) plus the calendar month tag that the source reads
from the first index entry before any shift is applied. -/
structure Ts where
  ord : ℚ
  month : Nat
deriving DecidableEq

/-- Modelled `pandas.Series` as consumed by the centering engine: the date
index, the values, and the string form of the index's `freq` attribute
(`str(ser.index.freq)` in the source; `"None"` when pandas stores no
frequency). -/
structure PdSeries where
  idx : List Ts
  vals : List ℚ
  freqAttr : String
deriving DecidableEq

/-- Embedding of the `shorthand_freq_dict` built inside `center_ts_obs`
(cb.py lines 187-195): the user-facing shorthand codes, the minute/hour
skip-multiples, and — added by the source's final loop — the lowercased
canonical tags mapping to themselves.  Note two literals faithfully copied
from the source: `"w"` maps to `"Week: weekday=6>"` (no leading `<`) and
`"6m"` maps to `"<6 * MonthEnds>"`.  A missing key is Python's `KeyError`. -/
def shorthand_freq_dict (s : String) : Option String :=
  match s with
  | "min" => some "<Minute>"
  | "h" => some "<Hour>"
  | "d" => some "<Day>"
  | "b" => some "<BusinessDay>"
  | "w" => some "Week: weekday=6>"
  | "m" => some "<MonthEnd>"
  | "6m" => some "<6 * MonthEnds>"
  | "q" => some "<QuarterEnd: startingMonth=12>"
  | "2q" => some "<2 * QuarterEnds: startingMonth=12>"
  | "a" => some "<YearEnd: month=12>"
  | "y" => some "<YearEnd: month=12>"
  | "5min" => some "<5 Minutes>"
  | "10min" => some "<10 Minutes>"
  | "15min" => some "<15 Minutes>"
  | "20min" => some "<20 Minutes>"
  | "30min" => some "<30 Minutes>"
  | "2h" => some "<2 Hours>"
  | "3h" => some "<3 Hours>"
  | "4h" => some "<4 Hours>"
  | "6h" => some "<6 Hours>"
  | "8h" => some "<8 Hours>"
  | "12h" => some "<12 Hours>"
  | "<minute>" => some "<Minute>"
  | "<hour>" => some "<Hour>"
  | "<day>" => some "<Day>"
  | "<businessday>" => some "<BusinessDay>"
  | "week: weekday=6>" => some "Week: weekday=6>"
  | "<monthend>" => some "<MonthEnd>"
  | "<6 * monthends>" => some "<6 * MonthEnds>"
  | "<quarterend: startingmonth=12>" => some "<QuarterEnd: startingMonth=12>"
  | "<2 * quarterends: startingmonth=12>" => some "<2 * QuarterEnds: startingMonth=12>"
  | "<yearend: month=12>" => some "<YearEnd: month=12>"
  | "<5 minutes>" => some "<5 Minutes>"
  | "<10 minutes>" => some "<10 Minutes>"
  | "<15 minutes>" => some "<15 Minutes>"
  | "<20 minutes>" => some "<20 Minutes>"
  | "<30 minutes>" => some "<30 Minutes>"
  | "<2 hours>" => some "<2 Hours>"
  | "<3 hours>" => some "<3 Hours>"
  | "<4 hours>" => some "<4 Hours>"
  | "<6 hours>" => some "<6 Hours>"
  | "<8 hours>" => some "<8 Hours>"
  | "<12 hours>" => some "<12 Hours>"
  | _ => none

/-- Embedding of the `freq_dict` table built inside `center_ts_obs`
(cb.py lines 198-207).  Note the key `"<6 * MonthEnd>"` (singular), copied
faithfully from line 200; it differs from `calc_freq_dict`, whose key is
`"<6 * MonthEnds>"`. -/
def center_freq_dict (freq : String) : Option ℚ :=
  match freq with
  | "<Minute>" => some (1 / (60 * 24))
  | "<Hour>" => some (1 / 24)
  | "<Day>" => some 1
  | "<BusinessDay>" => some 1
  | "<MonthEnd>" => some 30
  | "<6 * MonthEnd>" => some 180
  | "<QuarterEnd: startingMonth=12>" => some 91
  | "<2 * QuarterEnds: startingMonth=12>" => some 182
  | "<YearEnd: month=12>" => some 365
  | "<5 Minutes>" => some (5 / (60 * 24))
  | "<10 Minutes>" => some (10 / (60 * 24))
  | "<15 Minutes>" => some (15 / (60 * 24))
  | "<20 Minutes>" => some (20 / (60 * 24))
  | "<30 Minutes>" => some (30 / (60 * 24))
  | "<2 Hours>" => some (2 / 24)
  | "<3 Hours>" => some (3 / 24)
  | "<4 Hours>" => some (4 / 24)
  | "<6 Hours>" => some (6 / 24)
  | "<8 Hours>" => some (8 / 24)
  | "<12 Hours>" => some (12 / 24)
  | "<Week: weekday=0>" => some 7
  | "<Week: weekday=1>" => some 7
  | "<Week: weekday=2>" => some 7
  | "<Week: weekday=3>" => some 7
  | "<Week: weekday=4>" => some 7
  | "<Week: weekday=5>" => some 7
  | "<Week: weekday=6>" => some 7
  | _ => none

/-- Modelling of Python's `str.lower()` as used at cb.py line 197 (the
inputs there are ASCII): lowercase every character of the string. -/
def strLower (s : String) : String :=
  ⟨s.data.map Char.toLower⟩

/-- Embedding of `center_ts_obs` (cb.py lines 157-217), following the
source's evaluation order: resolve the frequency (the `shorthand_freq_dict`
lookup on the lowercased argument raises `KeyError` for unknown codes; with
no argument the series' own `freq` attribute string is used), evaluate
`freq_check` (which reads `index[0].month` only for the 2-quarter tag and
raises `IndexError` on an empty index), look the tag up in `freq_dict`
(`KeyError` when absent — this happens unconditionally at line 210), compute
`bar_width` (`ZeroDivisionError` when `number_stacks = 0`), then shift every
index by the single constant the source computes. -/
def center_ts_obs (ser : PdSeries) (ser_freq : Option String)
    (number_stacks curr_stack : Int) (width_coef pos_adj : ℚ) : Option PdSeries :=
  match (match ser_freq with
         | none => some ser.freqAttr
         | some s => shorthand_freq_dict (strLower s)) with
  | none => none
  | some rf =>
    match (if rf = "<2 * QuarterEnds: startingMonth=12>" then
             match ser.idx with
             | [] => none
             | t :: _ => some (decide (¬ (t.month = 6 ∨ t.month = 12)))
           else some false) with
    | none => none
    | some freq_check =>
      match center_freq_dict rf with
      | none => none
      | some period_length =>
        if number_stacks = 0 then none
        else
          some (if freq_check then
                  { ser with idx := ser.idx.map (fun t =>
                      { t with ord := t.ord + period_length / 2 -
                        (((1/2 : ℚ) - width_coef / 2) * period_length +
                         ((curr_stack : ℚ) - 1/2) * (width_coef * period_length / (number_stacks : ℚ)) -
                         pos_adj) }) }
                else if (center_freq_dict rf).isSome then
                  { ser with idx := ser.idx.map (fun t =>
                      { t with ord := t.ord -
                        (((1/2 : ℚ) - width_coef / 2) * period_length +
                         ((curr_stack : ℚ) - 1/2) * (width_coef * period_length / (number_stacks : ℚ)) -
                         pos_adj) }) }
                else ser)

/-- C1: for every series whose resolved frequency tag is a key of the
period-length table — excluding the already-centered 2-quarter special case,
i.e. when the tag is the 2-quarter tag the first index's month is 6 or 12 —
and every `number_stacks ≥ 1`, `1 ≤ curr_stack ≤ number_stacks`,
`width_coef` and `pos_adj`, `center_ts_obs` returns a series with the same
values in which every index is shifted by the one constant
`-(((0.5 - width_coef/2) * periodLength) + ((curr_stack - 0.5) * barWidth) - pos_adj)`
days, `barWidth = width_coef * periodLength / number_stacks`, applied
uniformly to all observations. -/
theorem center_ts_obs_uniform_shift (ser : PdSeries) (pl : ℚ) (ns cs : Int) (wc pa : ℚ)
    (hpl : center_freq_dict ser.freqAttr = some pl)
    (hspec : ser.freqAttr = "<2 * QuarterEnds: startingMonth=12>" →
      ∃ t rest, ser.idx = t :: rest ∧ (t.month = 6 ∨ t.month = 12))
    (hns : 1 ≤ ns) (hcs1 : 1 ≤ cs) (hcs2 : cs ≤ ns) :
    center_ts_obs ser none ns cs wc pa =
      some { idx := ser.idx.map (fun t =>
               { t with ord := t.ord -
                 (((1/2 : ℚ) - wc / 2) * pl + ((cs : ℚ) - 1/2) * (wc * pl / (ns : ℚ)) - pa) }),
             vals := ser.vals, freqAttr := ser.freqAttr } := by
  have hns0 : ns ≠ 0 := by omega
  by_cases h2 : ser.freqAttr = "<2 * QuarterEnds: startingMonth=12>"
  · obtain ⟨t, rest, hidx, hm⟩ := hspec h2
    have hdec : decide (¬ (t.month = 6 ∨ t.month = 12)) = false := by
      rcases hm with h | h <;> simp [h]
    rw [h2] at hpl
    simp only [center_ts_obs, h2, hidx, hdec, hpl, hns0, if_true, if_false,
      Option.isSome_some, if_neg hns0, reduceIte]
    rw [← hidx]
    rfl
  · simp only [center_ts_obs, if_neg h2, hpl, if_neg hns0, Option.isSome_some, reduceIte]
    rfl

/-- Witness for C1 at the claim's concrete input: a single-stack
(`number_stacks = 1`, `curr_stack = 1`, `width_coef = 1`, `pos_adj = 0`)
month-end observation indexed at 2021-01-31 is moved exactly 15 days back,
to 2021-01-16. -/
theorem center_ts_obs_uniform_shift_witness :
    center_ts_obs ⟨[⟨((daysFromCivil 2021 1 31 : Int) : ℚ), 1⟩], [5], "<MonthEnd>"⟩
        none 1 1 1 0 =
      some ⟨[⟨((daysFromCivil 2021 1 16 : Int) : ℚ), 1⟩], [5], "<MonthEnd>"⟩ := by
  have h := center_ts_obs_uniform_shift
    ⟨[⟨((daysFromCivil 2021 1 31 : Int) : ℚ), 1⟩], [5], "<MonthEnd>"⟩ 30 1 1 1 0
    rfl (fun hh => absurd hh (by decide)) (by decide) (by decide) (by decide)
  rw [h]
  have h31 : daysFromCivil 2021 1 31 = 18658 := by decide
  have h16 : daysFromCivil 2021 1 16 = 18643 := by decide
  rw [h31, h16]
  norm_num

/-- C6: a series resolved to the `"<2 * QuarterEnds: startingMonth=12>"`
tag whose first index's month is not 6 or 12 first has every index shifted
forward by half the period (91 of the 182 days) and then receives the
standard shift; when the first index's month is 6 or 12 only the standard
shift is applied. -/
theorem center_ts_obs_two_quarter_special (t : Ts) (rest : List Ts) (vals : List ℚ)
    (ns cs : Int) (wc pa : ℚ) (hns : 1 ≤ ns) :
    (¬ (t.month = 6 ∨ t.month = 12) →
      center_ts_obs ⟨t :: rest, vals, "<2 * QuarterEnds: startingMonth=12>"⟩ none ns cs wc pa =
        some ⟨(t :: rest).map (fun u =>
            { u with ord := u.ord + 91 -
              (((1/2 : ℚ) - wc / 2) * 182 + ((cs : ℚ) - 1/2) * (wc * 182 / (ns : ℚ)) - pa) }),
          vals, "<2 * QuarterEnds: startingMonth=12>"⟩) ∧
    ((t.month = 6 ∨ t.month = 12) →
      center_ts_obs ⟨t :: rest, vals, "<2 * QuarterEnds: startingMonth=12>"⟩ none ns cs wc pa =
        some ⟨(t :: rest).map (fun u =>
            { u with ord := u.ord -
              (((1/2 : ℚ) - wc / 2) * 182 + ((cs : ℚ) - 1/2) * (wc * 182 / (ns : ℚ)) - pa) }),
          vals, "<2 * QuarterEnds: startingMonth=12>"⟩) := by
  have hns0 : ns ≠ 0 := by omega
  have h91 : (182 : ℚ) / 2 = 91 := by norm_num
  constructor
  · intro hm
    have hdec : decide (¬ (t.month = 6 ∨ t.month = 12)) = true := by simp [hm]
    simp only [center_ts_obs, center_freq_dict, hdec, if_neg hns0, if_true, reduceIte]
    simp only [h91]
  · intro hm
    have hdec : decide (¬ (t.month = 6 ∨ t.month = 12)) = false := by
      rcases hm with h | h <;> simp [h]
    simp only [center_ts_obs, hdec, if_neg hns0, Option.isSome_some, reduceIte]
    rfl

/-- Witness for C6 at a concrete input: a 2-quarter series anchored in
March (month 3, not in {6, 12}) with a single stack; the re-centering +91
and the standard shift -91 cancel exactly. -/
theorem center_ts_obs_two_quarter_special_witness :
    center_ts_obs ⟨[⟨0, 3⟩], [1], "<2 * QuarterEnds: startingMonth=12>"⟩ none 1 1 1 0 =
      some ⟨[⟨0, 3⟩], [1], "<2 * QuarterEnds: startingMonth=12>"⟩ := by
  have h := (center_ts_obs_two_quarter_special ⟨0, 3⟩ [] [1] 1 1 1 0 (by decide)).1
    (by decide)
  rw [h]
  norm_num

/-- Series used to exercise the shorthand codes: one observation, anchored
in March, with no stored pandas frequency attribute. -/
def demo_ser : PdSeries := ⟨[⟨0, 3⟩], [1], "None"⟩

/-- C5 (code bug): the shorthand codes `"w"` and `"6m"` (any letter case)
do not complete the centering computation — `"w"` resolves to
`"Week: weekday=6>"` (the leading `<` is missing in the source's shorthand
table) and `"6m"` resolves to `"<6 * MonthEnds>"` while the period-length
table's key is `"<6 * MonthEnd>"`, so line 210's `freq_dict[ser_freq]`
raises `KeyError` for both; every other code of the claimed closed set
resolves and completes, and an unrecognized shorthand fails. -/
theorem center_ts_obs_shorthand_resolution_bug :
    center_ts_obs demo_ser (some "w") 1 1 1 0 = none ∧
    center_ts_obs demo_ser (some "W") 1 1 1 0 = none ∧
    center_ts_obs demo_ser (some "6m") 1 1 1 0 = none ∧
    center_ts_obs demo_ser (some "6M") 1 1 1 0 = none ∧
    (center_ts_obs demo_ser (some "min") 1 1 1 0).isSome = true ∧
    (center_ts_obs demo_ser (some "5min") 1 1 1 0).isSome = true ∧
    (center_ts_obs demo_ser (some "10min") 1 1 1 0).isSome = true ∧
    (center_ts_obs demo_ser (some "15min") 1 1 1 0).isSome = true ∧
    (center_ts_obs demo_ser (some "20min") 1 1 1 0).isSome = true ∧
    (center_ts_obs demo_ser (some "30min") 1 1 1 0).isSome = true ∧
    (center_ts_obs demo_ser (some "h") 1 1 1 0).isSome = true ∧
    (center_ts_obs demo_ser (some "2h") 1 1 1 0).isSome = true ∧
    (center_ts_obs demo_ser (some "3h") 1 1 1 0).isSome = true ∧
    (center_ts_obs demo_ser (some "4h") 1 1 1 0).isSome = true ∧
    (center_ts_obs demo_ser (some "6h") 1 1 1 0).isSome = true ∧
    (center_ts_obs demo_ser (some "8h") 1 1 1 0).isSome = true ∧
    (center_ts_obs demo_ser (some "12h") 1 1 1 0).isSome = true ∧
    (center_ts_obs demo_ser (some "d") 1 1 1 0).isSome = true ∧
    (center_ts_obs demo_ser (some "b") 1 1 1 0).isSome = true ∧
    (center_ts_obs demo_ser (some "m") 1 1 1 0).isSome = true ∧
    (center_ts_obs demo_ser (some "M") 1 1 1 0).isSome = true ∧
    (center_ts_obs demo_ser (some "q") 1 1 1 0).isSome = true ∧
    (center_ts_obs demo_ser (some "2q") 1 1 1 0).isSome = true ∧
    (center_ts_obs demo_ser (some "2Q") 1 1 1 0).isSome = true ∧
    (center_ts_obs demo_ser (some "a") 1 1 1 0).isSome = true ∧
    (center_ts_obs demo_ser (some "y") 1 1 1 0).isSome = true ∧
    center_ts_obs demo_ser (some "zzz") 1 1 1 0 = none := by
  decide

/-- Result of `form_partition`: the dictionary with keys `"rows"` and
`"cols"`. -/
structure Partition where
  rows : List ℚ
  cols : List ℚ
deriving DecidableEq

/-- Embedding of the `"rows"` comprehension of `form_partition`
(cb.py line 322): `[v_end - v_length * sum(sizes[:ind]) / total for ind in
range(nrow)] + [v_start]`. -/
def row_boundaries (v_start v_end : ℚ) (w : List ℚ) (nrow : ℕ) : List ℚ :=
  (List.range nrow).map
    (fun ind => v_end - (v_end - v_start) * ((w.take ind).sum) / w.sum) ++ [v_start]

/-- Embedding of the `"cols"` comprehension of `form_partition`
(cb.py line 323): `[h_start + h_length * sum(sizes[:ind]) / total for ind in
range(ncol)] + [h_end]`. -/
def col_boundaries (h_start h_end : ℚ) (w : List ℚ) (ncol : ℕ) : List ℚ :=
  (List.range ncol).map
    (fun ind => h_start + (h_end - h_start) * ((w.take ind).sum) / w.sum) ++ [h_end]

/-- Embedding of `form_partition` (cb.py lines 287-325).  The source
performs no validation: weight lists default to all-ones, and the only
possible failure is the `ZeroDivisionError` raised when a comprehension
divides by a zero total weight, which happens exactly when the respective
count is at least 1 (otherwise the comprehension body never runs). -/
def form_partition (h_start h_end v_start v_end : ℚ) (nrow ncol : ℕ)
    (relative_row_sizes relative_col_sizes : Option (List ℚ)) : Option Partition :=
  if (1 ≤ nrow ∧ (relative_row_sizes.getD (List.replicate nrow 1)).sum = 0) ∨
     (1 ≤ ncol ∧ (relative_col_sizes.getD (List.replicate ncol 1)).sum = 0) then none
  else
    some ⟨row_boundaries v_start v_end (relative_row_sizes.getD (List.replicate nrow 1)) nrow,
          col_boundaries h_start h_end (relative_col_sizes.getD (List.replicate ncol 1)) ncol⟩

/-- Helper: prefix sums of a positive list are strictly increasing step by
step. -/
theorem take_sum_lt (w : List ℚ) (m : ℕ) (hm : m < w.length) (hw : ∀ x ∈ w, 0 < x) :
    (w.take m).sum < (w.take (m + 1)).sum := by
  rw [List.sum_take_succ w m hm]
  have := hw w[m] (List.getElem_mem hm)
  linarith

/-- Helper: with a full-length weight list and a nonzero total, the trailing
`[v_start]` entry of the rows list coincides with the comprehension formula
at index `nrow`, so the whole list is one `map` over `range (nrow+1)`. -/
theorem row_boundaries_eq (v_start v_end : ℚ) (w : List ℚ) (n : ℕ)
    (hl : w.length = n) (hT : w.sum ≠ 0) :
    row_boundaries v_start v_end w n =
      (List.range (n + 1)).map
        (fun ind => v_end - (v_end - v_start) * ((w.take ind).sum) / w.sum) := by
  have ht : w.take n = w := by rw [← hl]; exact List.take_length w
  unfold row_boundaries
  rw [List.range_succ, List.map_append, List.map_cons, List.map_nil]
  congr 2
  rw [ht, mul_div_assoc, div_self hT, mul_one]
  ring

/-- Helper: the analogous single-`map` form of the cols list. -/
theorem col_boundaries_eq (h_start h_end : ℚ) (w : List ℚ) (n : ℕ)
    (hl : w.length = n) (hT : w.sum ≠ 0) :
    col_boundaries h_start h_end w n =
      (List.range (n + 1)).map
        (fun ind => h_start + (h_end - h_start) * ((w.take ind).sum) / w.sum) := by
  have ht : w.take n = w := by rw [← hl]; exact List.take_length w
  unfold col_boundaries
  rw [List.range_succ, List.map_append, List.map_cons, List.map_nil]
  congr 2
  rw [ht, mul_div_assoc, div_self hT, mul_one]
  ring

/-- Helper: the rows list is strictly descending under positive weights. -/
theorem row_boundaries_chain (v_start v_end : ℚ) (w : List ℚ) (n : ℕ)
    (hl : w.length = n) (hn : 1 ≤ n) (hw : ∀ x ∈ w, 0 < x) (hv : v_start < v_end) :
    List.Chain' (fun a b => b < a) (row_boundaries v_start v_end w n) := by
  have hne : w ≠ [] := by intro h; rw [h] at hl; simp at hl; omega
  have hT : 0 < w.sum := List.sum_pos w hw hne
  rw [row_boundaries_eq v_start v_end w n hl (ne_of_gt hT), List.chain'_map,
    List.chain'_range_succ]
  intro m hm
  have hm2 : m < w.length := by omega
  have hstep : (w.take m).sum < (w.take (m + 1)).sum := take_sum_lt w m hm2 hw
  have hL : 0 < v_end - v_start := sub_pos.mpr hv
  have h1 : (v_end - v_start) * (w.take m).sum / w.sum <
      (v_end - v_start) * (w.take (m + 1)).sum / w.sum :=
    (div_lt_div_iff_of_pos_right hT).mpr (mul_lt_mul_of_pos_left hstep hL)
  linarith

/-- Helper: the cols list is strictly ascending under positive weights. -/
theorem col_boundaries_chain (h_start h_end : ℚ) (w : List ℚ) (n : ℕ)
    (hl : w.length = n) (hn : 1 ≤ n) (hw : ∀ x ∈ w, 0 < x) (hh : h_start < h_end) :
    List.Chain' (fun a b => a < b) (col_boundaries h_start h_end w n) := by
  have hne : w ≠ [] := by intro h; rw [h] at hl; simp at hl; omega
  have hT : 0 < w.sum := List.sum_pos w hw hne
  rw [col_boundaries_eq h_start h_end w n hl (ne_of_gt hT), List.chain'_map,
    List.chain'_range_succ]
  intro m hm
  have hm2 : m < w.length := by omega
  have hstep : (w.take m).sum < (w.take (m + 1)).sum := take_sum_lt w m hm2 hw
  have hL : 0 < h_end - h_start := sub_pos.mpr hh
  have h1 : (h_end - h_start) * (w.take m).sum / w.sum <
      (h_end - h_start) * (w.take (m + 1)).sum / w.sum :=
    (div_lt_div_iff_of_pos_right hT).mpr (mul_lt_mul_of_pos_left hstep hL)
  linarith

/-- Helper: first row boundary is the top edge. -/
theorem row_boundaries_head (v_start v_end : ℚ) (w : List ℚ) (n : ℕ) (hn : 1 ≤ n) :
    (row_boundaries v_start v_end w n).head? = some v_end := by
  obtain ⟨m, rfl⟩ : ∃ m, n = m + 1 := ⟨n - 1, by omega⟩
  unfold row_boundaries
  rw [List.range_succ_eq_map, List.map_cons]
  simp

/-- Helper: first col boundary is the left edge. -/
theorem col_boundaries_head (h_start h_end : ℚ) (w : List ℚ) (n : ℕ) (hn : 1 ≤ n) :
    (col_boundaries h_start h_end w n).head? = some h_start := by
  obtain ⟨m, rfl⟩ : ∃ m, n = m + 1 := ⟨n - 1, by omega⟩
  unfold col_boundaries
  rw [List.range_succ_eq_map, List.map_cons]
  simp

/-- Helper: interior row boundaries follow the cumulative-fraction formula. -/
theorem row_boundaries_getElem (v_start v_end : ℚ) (w : List ℚ) (n : ℕ)
    (i : ℕ) (hi : i < n) :
    (row_boundaries v_start v_end w n)[i]? =
      some (v_end - (v_end - v_start) * ((w.take i).sum) / w.sum) := by
  unfold row_boundaries
  rw [List.getElem?_append_left (by simpa using hi), List.getElem?_map,
    List.getElem?_range hi]
  rfl

/-- Helper: interior col boundaries follow the cumulative-fraction formula. -/
theorem col_boundaries_getElem (h_start h_end : ℚ) (w : List ℚ) (n : ℕ)
    (i : ℕ) (hi : i < n) :
    (col_boundaries h_start h_end w n)[i]? =
      some (h_start + (h_end - h_start) * ((w.take i).sum) / w.sum) := by
  unfold col_boundaries
  rw [List.getElem?_append_left (by simpa using hi), List.getElem?_map,
    List.getElem?_range hi]
  rfl

/-- C7: for every `nrow, ncol ≥ 1`, bounds with `h_start < h_end` and
`v_start < v_end`, and positive weight lists of matching lengths (the
all-ones default when omitted), `form_partition` succeeds and returns row
boundaries of length `nrow + 1`, strictly descending from `v_end` to
`v_start`, with each interior boundary `v_end - (v_end - v_start) *
(cumulative row-weight fraction)`, and column boundaries of length
`ncol + 1`, strictly ascending from `h_start` to `h_end`, computed
analogously. -/
theorem form_partition_boundaries (h_start h_end v_start v_end : ℚ) (nrow ncol : ℕ)
    (rws cws : Option (List ℚ)) (rw_ cw_ : List ℚ)
    (hrw : rws.getD (List.replicate nrow 1) = rw_)
    (hcw : cws.getD (List.replicate ncol 1) = cw_)
    (hnr : 1 ≤ nrow) (hnc : 1 ≤ ncol) (hh : h_start < h_end) (hv : v_start < v_end)
    (hrl : rw_.length = nrow) (hcl : cw_.length = ncol)
    (hrp : ∀ x ∈ rw_, 0 < x) (hcp : ∀ x ∈ cw_, 0 < x) :
    form_partition h_start h_end v_start v_end nrow ncol rws cws =
        some ⟨row_boundaries v_start v_end rw_ nrow, col_boundaries h_start h_end cw_ ncol⟩ ∧
    (row_boundaries v_start v_end rw_ nrow).length = nrow + 1 ∧
    (row_boundaries v_start v_end rw_ nrow).head? = some v_end ∧
    (row_boundaries v_start v_end rw_ nrow).getLast? = some v_start ∧
    (∀ i, i < nrow → (row_boundaries v_start v_end rw_ nrow)[i]? =
        some (v_end - (v_end - v_start) * ((rw_.take i).sum) / rw_.sum)) ∧
    List.Chain' (fun a b => b < a) (row_boundaries v_start v_end rw_ nrow) ∧
    (col_boundaries h_start h_end cw_ ncol).length = ncol + 1 ∧
    (col_boundaries h_start h_end cw_ ncol).head? = some h_start ∧
    (col_boundaries h_start h_end cw_ ncol).getLast? = some h_end ∧
    (∀ i, i < ncol → (col_boundaries h_start h_end cw_ ncol)[i]? =
        some (h_start + (h_end - h_start) * ((cw_.take i).sum) / cw_.sum)) ∧
    List.Chain' (fun a b => a < b) (col_boundaries h_start h_end cw_ ncol) := by
  have hrne : rw_ ≠ [] := by intro h; rw [h] at hrl; simp at hrl; omega
  have hcne : cw_ ≠ [] := by intro h; rw [h] at hcl; simp at hcl; omega
  have hrT : 0 < rw_.sum := List.sum_pos rw_ hrp hrne
  have hcT : 0 < cw_.sum := List.sum_pos cw_ hcp hcne
  refine ⟨?_, by simp [row_boundaries], row_boundaries_head v_start v_end rw_ nrow hnr,
    by unfold row_boundaries; exact List.getLast?_concat _,
    fun i hi => row_boundaries_getElem v_start v_end rw_ nrow i hi,
    row_boundaries_chain v_start v_end rw_ nrow hrl hnr hrp hv,
    by simp [col_boundaries], col_boundaries_head h_start h_end cw_ ncol hnc,
    by unfold col_boundaries; exact List.getLast?_concat _,
    fun i hi => col_boundaries_getElem h_start h_end cw_ ncol i hi,
    col_boundaries_chain h_start h_end cw_ ncol hcl hnc hcp hh⟩
  unfold form_partition
  rw [hrw, hcw, if_neg]
  rintro (⟨-, h0⟩ | ⟨-, h0⟩)
  · exact absurd h0 (ne_of_gt hrT)
  · exact absurd h0 (ne_of_gt hcT)

/-- Witness for C7 at the claim's concrete inputs: the uniform 2-by-2 unit
partition gives rows `[1, 1/2, 0]` and cols `[0, 1/2, 1]`, and a width-3
strip with column weights `[2, 1]` gives cols `[0, 2, 3]`. -/
theorem form_partition_boundaries_witness :
    form_partition 0 1 0 1 2 2 none none = some ⟨[1, 1/2, 0], [0, 1/2, 1]⟩ ∧
    form_partition 0 3 0 1 1 2 none (some [2, 1]) = some ⟨[1, 0], [0, 2, 3]⟩ := by
  constructor
  · have h := form_partition_boundaries 0 1 0 1 2 2 none none [1, 1] [1, 1]
      rfl rfl (by norm_num) (by norm_num) (by norm_num) (by norm_num)
      rfl rfl (by norm_num) (by norm_num)
    refine h.1.trans ?_
    norm_num [row_boundaries, col_boundaries, List.range_succ]
  · have h := form_partition_boundaries 0 3 0 1 1 2 none (some [2, 1]) [1] [2, 1]
      rfl rfl (by norm_num) (by norm_num) (by norm_num) (by norm_num)
      rfl rfl (by norm_num) (by norm_num)
    refine h.1.trans ?_
    norm_num [row_boundaries, col_boundaries, List.range_succ]

/-- Counterexample to C8: `form_partition` performs no validation.  With
`nrow = 0` (violating `nrow ≥ 1`) it silently returns row boundaries
`[v_start]`, and with a row-weight list of length 3 supplied for `nrow = 2`
(a length mismatch) it silently computes a result from the list's prefix
sums; neither input produces an error. -/
theorem form_partition_accepts_invalid_config :
    form_partition 0 1 0 1 0 2 none none = some ⟨[0], [0, 1/2, 1]⟩ ∧
    form_partition 0 1 0 1 2 2 (some [1, 1, 1]) none =
      some ⟨[1, 2/3, 0], [0, 1/2, 1]⟩ := by
  constructor
  · norm_num [form_partition, row_boundaries, col_boundaries, List.range_succ]
  · norm_num [form_partition, row_boundaries, col_boundaries, List.range_succ]

/-- C8 (amended): `form_partition` validates nothing — neither `nrow, ncol ≥ 1`
nor weight-list lengths.  It fails only when a comprehension actually divides
by a zero total weight (count ≥ 1 with weights summing to 0, which the
all-ones defaults never trigger); in every other case, including zero counts
and mismatched weight-list lengths, it silently returns boundary lists of
lengths `nrow + 1` and `ncol + 1`. -/
theorem form_partition_no_validation (h_start h_end v_start v_end : ℚ) (nrow ncol : ℕ)
    (rws cws : Option (List ℚ)) :
    ((form_partition h_start h_end v_start v_end nrow ncol rws cws).isSome = true ↔
      ¬ ((1 ≤ nrow ∧ (rws.getD (List.replicate nrow 1)).sum = 0) ∨
         (1 ≤ ncol ∧ (cws.getD (List.replicate ncol 1)).sum = 0))) ∧
    (∀ p, form_partition h_start h_end v_start v_end nrow ncol rws cws = some p →
      p.rows.length = nrow + 1 ∧ p.cols.length = ncol + 1) := by
  unfold form_partition
  by_cases hc : (1 ≤ nrow ∧ (rws.getD (List.replicate nrow 1)).sum = 0) ∨
      (1 ≤ ncol ∧ (cws.getD (List.replicate ncol 1)).sum = 0)
  · rw [if_pos hc]
    exact ⟨iff_of_false (by simp) (not_not_intro hc), fun p hp => by cases hp⟩
  · rw [if_neg hc]
    refine ⟨iff_of_true (by simp) hc, fun p hp => ?_⟩
    cases hp
    exact ⟨by simp [row_boundaries], by simp [col_boundaries]⟩

/-- Witness for C8 (amended) at a concrete input: `nrow = 5` with a supplied
weight list of length 3 — mismatched — still succeeds. -/
theorem form_partition_no_validation_witness :
    (form_partition 0 1 0 1 5 2 (some [1, 1, 1]) none).isSome = true := by
  have h := form_partition_no_validation 0 1 0 1 5 2 (some [1, 1, 1]) none
  exact h.1.mpr (by norm_num)

/-- Embedding of the per-label position computation of the tick-based
centering branch of `format_panel_ts_xaxis` (cb.py lines 2219-2227):
`min_mark` is Python's `min` over the significant positions at or after the
label date (`ValueError` on an empty list, modelled `none`), `max_mark` is
`max` over those at or before the next period boundary, a collapsed window
(`max_mark == min_mark`) has its right edge replaced by the axis's right
x-limit, and the label goes at the window midpoint.  `List.min?`/`List.max?`
are definitionally Python's `min`/`max` of a nonempty list. -/
def tick_based_label_pos (sig_xpos : List ℚ)
    (label_num next_period_number xlim_hi : ℚ) : Option ℚ :=
  match (sig_xpos.filter (fun x => label_num ≤ x)).min? with
  | none => none
  | some min_mark =>
    match (sig_xpos.filter (fun x => x ≤ next_period_number)).max? with
    | none => none
    | some mm =>
      some ((min_mark + (if mm = min_mark then xlim_hi else mm)) / 2)

/-- C9: whenever the centering window collapses to a single point — the
least significant position at or after the label date equals the greatest
significant position at or before the next period boundary — the window's
right edge is silently replaced by the axis's right x-limit and the label is
placed at the midpoint `(m + xlim_hi) / 2`; no error occurs. -/
theorem tick_label_collapse_widens (sig_xpos : List ℚ)
    (label_num next_period_number xlim_hi m : ℚ)
    (hminmem : m ∈ sig_xpos.filter (fun x => label_num ≤ x))
    (hminlb : ∀ b ∈ sig_xpos.filter (fun x => label_num ≤ x), m ≤ b)
    (hmaxmem : m ∈ sig_xpos.filter (fun x => x ≤ next_period_number))
    (hmaxub : ∀ b ∈ sig_xpos.filter (fun x => x ≤ next_period_number), b ≤ m) :
    tick_based_label_pos sig_xpos label_num next_period_number xlim_hi =
      some ((m + xlim_hi) / 2) := by
  haveI : Std.Antisymm ((· : ℚ) ≤ ·) := ⟨fun h h2 => le_antisymm h h2⟩
  have h1 : (sig_xpos.filter (fun x => label_num ≤ x)).min? = some m :=
    (List.min?_eq_some_iff (fun a => le_refl a) (fun a b => min_choice a b)
      (fun a b c => le_min_iff)).mpr ⟨hminmem, hminlb⟩
  have h2 : (sig_xpos.filter (fun x => x ≤ next_period_number)).max? = some m :=
    (List.max?_eq_some_iff (fun a => le_refl a) (fun a b => max_choice a b)
      (fun a b c => max_le_iff)).mpr ⟨hmaxmem, hmaxub⟩
  unfold tick_based_label_pos
  rw [h1, h2]
  simp

/-- Witness for C9 at a concrete input: significant positions `[0, 5, 10]`
with a label at 5 whose next period boundary is also 5 — the window is
`[5, 5]`, so the right edge widens to the x-limit 10 and the label lands at
`15/2`. -/
theorem tick_label_collapse_widens_witness :
    tick_based_label_pos [0, 5, 10] 5 5 10 = some (15 / 2) := by
  have h := tick_label_collapse_widens [0, 5, 10] 5 5 10 5
    (by norm_num) (by intro b hb; fin_cases hb <;> norm_num)
    (by norm_num) (by intro b hb; fin_cases hb <;> norm_num)
  exact h.trans (by norm_num)

/-- Panel object stored in the exhibit's `panel_dict`: the kind of backend
axis each `add_panel_*` method creates (the graphical state delegated to the
backend is outside the embedding; the time-series panel keeps the x-range it
sets, and a secondary axis records which panel it was created from). -/
inductive PanelVal where
  | tsPanel (x_lo x_hi : ℚ)
  | nontsPanel
  | tablePanel
  | secY (original : String)
  | secX (original : String)
deriving DecidableEq

/-- Embedding of the `Exhibit` state the panel-adding methods touch: the
insertion-ordered `panel_dict` mapping panel aliases to axis objects
(aliases modelled as strings, the typical usage). -/
structure Exhibit where
  panel_dict : List (String × PanelVal)
deriving DecidableEq

/-- Embedding of `Exhibit.add_panel_ts` (cb.py lines 576-618): the method
asserts the alias is not already a key of `panel_dict` (a failed `assert`
raises, leaving the dict unchanged) and otherwise inserts the new axis,
recording the x-range it sets. -/
def add_panel_ts (e : Exhibit) (panel_alias : String) (x_lo x_hi : ℚ) : Option Exhibit :=
  if (e.panel_dict.lookup panel_alias).isSome then none
  else some ⟨e.panel_dict ++ [(panel_alias, PanelVal.tsPanel x_lo x_hi)]⟩

/-- Embedding of `Exhibit.add_panel_nonts` (cb.py lines 621-661): same
duplicate-alias assert, then insertion. -/
def add_panel_nonts (e : Exhibit) (panel_alias : String) : Option Exhibit :=
  if (e.panel_dict.lookup panel_alias).isSome then none
  else some ⟨e.panel_dict ++ [(panel_alias, PanelVal.nontsPanel)]⟩

/-- Embedding of `Exhibit.add_panel_table` (cb.py lines 711-751): same
duplicate-alias assert, then insertion. -/
def add_panel_table (e : Exhibit) (panel_alias : String) : Option Exhibit :=
  if (e.panel_dict.lookup panel_alias).isSome then none
  else some ⟨e.panel_dict ++ [(panel_alias, PanelVal.tablePanel)]⟩

/-- Embedding of `Exhibit.add_panel_sec_yaxis` (cb.py lines 664-684): the
assert on the new alias runs first; then the original panel is looked up
(`KeyError` when unregistered) and the twin axis inserted. -/
def add_panel_sec_yaxis (e : Exhibit) (original_panel_alias sec_alias : String) : Option Exhibit :=
  if (e.panel_dict.lookup sec_alias).isSome then none
  else
    match e.panel_dict.lookup original_panel_alias with
    | none => none
    | some _ => some ⟨e.panel_dict ++ [(sec_alias, PanelVal.secY original_panel_alias)]⟩

/-- Embedding of `Exhibit.add_panel_sec_xaxis` (cb.py lines 687-708):
mirror of the secondary y-axis method. -/
def add_panel_sec_xaxis (e : Exhibit) (original_panel_alias sec_alias : String) : Option Exhibit :=
  if (e.panel_dict.lookup sec_alias).isSome then none
  else
    match e.panel_dict.lookup original_panel_alias with
    | none => none
    | some _ => some ⟨e.panel_dict ++ [(sec_alias, PanelVal.secX original_panel_alias)]⟩

/-- Helper: association-list lookup distributes over append. -/
theorem lookup_append (l₁ l₂ : List (String × PanelVal)) (k : String) :
    (l₁ ++ l₂).lookup k = ((l₁.lookup k).or (l₂.lookup k)) := by
  induction l₁ with
  | nil => simp
  | cons p l ih =>
    obtain ⟨k1, v⟩ := p
    by_cases h : k = k1
    · simp [List.lookup, h]
    · simp [List.lookup, beq_eq_false_iff_ne.mpr h, ih]

/-- Helper: lookup in a one-entry association list. -/
theorem lookup_single (k k1 : String) (v : PanelVal) :
    ([(k1, v)] : List (String × PanelVal)).lookup k =
      if k = k1 then some v else none := by
  by_cases h : k = k1
  · simp [List.lookup, h]
  · simp [List.lookup, beq_eq_false_iff_ne.mpr h, h]

/-- C10: every panel-adding operation fails on an alias already present in
`panel_dict` (the mapping is untouched — the failed call returns nothing and
the original exhibit is unchanged by construction), while adding two panels
under distinct fresh aliases succeeds and afterwards both panels remain
independently retrievable under their own aliases. -/
theorem add_panel_duplicate_key (e : Exhibit) (k o k1 k2 : String)
    (lo hi lo2 hi2 : ℚ)
    (hdup : (e.panel_dict.lookup k).isSome = true)
    (h1 : e.panel_dict.lookup k1 = none) (h2 : e.panel_dict.lookup k2 = none)
    (hne : k1 ≠ k2) :
    add_panel_ts e k lo hi = none ∧
    add_panel_nonts e k = none ∧
    add_panel_table e k = none ∧
    add_panel_sec_yaxis e o k = none ∧
    add_panel_sec_xaxis e o k = none ∧
    ∃ e1 e2, add_panel_ts e k1 lo hi = some e1 ∧
      add_panel_ts e1 k2 lo2 hi2 = some e2 ∧
      e2.panel_dict.lookup k1 = some (PanelVal.tsPanel lo hi) ∧
      e2.panel_dict.lookup k2 = some (PanelVal.tsPanel lo2 hi2) := by
  refine ⟨by simp [add_panel_ts, hdup], by simp [add_panel_nonts, hdup],
    by simp [add_panel_table, hdup], by simp [add_panel_sec_yaxis, hdup],
    by simp [add_panel_sec_xaxis, hdup], ?_⟩
  refine ⟨⟨e.panel_dict ++ [(k1, PanelVal.tsPanel lo hi)]⟩,
    ⟨(e.panel_dict ++ [(k1, PanelVal.tsPanel lo hi)]) ++ [(k2, PanelVal.tsPanel lo2 hi2)]⟩,
    ?_, ?_, ?_, ?_⟩
  · simp [add_panel_ts, h1]
  · have hk2 : (e.panel_dict ++ [(k1, PanelVal.tsPanel lo hi)]).lookup k2 = none := by
      rw [lookup_append, h2, lookup_single, if_neg (Ne.symm hne)]
      rfl
    simp [add_panel_ts, hk2]
  · rw [lookup_append, lookup_append, h1, lookup_single, if_pos rfl]
    rfl
  · rw [lookup_append, lookup_append, h2, lookup_single,
      if_neg (Ne.symm hne), lookup_single, if_pos rfl]
    rfl

/-- Witness for C10 at a concrete input: an exhibit already holding alias
`"a"` rejects a second panel under `"a"`, while panels `"b"` and `"c"` are
added in turn and both retrieved. -/
theorem add_panel_duplicate_key_witness :
    add_panel_ts ⟨[("a", PanelVal.nontsPanel)]⟩ "a" 0 1 = none ∧
    ∃ e1 e2, add_panel_ts ⟨[("a", PanelVal.nontsPanel)]⟩ "b" 0 1 = some e1 ∧
      add_panel_ts e1 "c" 2 3 = some e2 ∧
      e2.panel_dict.lookup "b" = some (PanelVal.tsPanel 0 1) ∧
      e2.panel_dict.lookup "c" = some (PanelVal.tsPanel 2 3) := by
  have h := add_panel_duplicate_key ⟨[("a", PanelVal.nontsPanel)]⟩ "a" "a" "b" "c"
    0 1 2 3 rfl rfl rfl (by decide)
  exact ⟨h.1, h.2.2.2.2.2⟩
